import Mathlib

/-!
Verification of PyThermoLinkDB's rule-resolution and source-composition core.

The development shallowly embeds the Python code of the repository:
Python dicts become association lists with Python's insertion semantics
(`PyLink.Dict`), raised exceptions become `Except.error`, values supplied by
the external thermodynamic-database collaborator (`pyThermoDB`) are abstract
type parameters, and mutable object state becomes explicit state passing.
Each embedded definition carries a reference to the Python function it
translates.
-/

namespace PyLink

/-- A Python `dict` with `String` keys: an association list whose construction
operations keep keys unique and preserve insertion order, exactly as CPython
dicts do.  `dGet` models `d[k]` / `d.get(k)`, `dSet` models `d[k] = v`
(replace in place, else append), `dErase` models `del d[k]`, `pyUpdate`
models `d.update(e)`, and `pyMerge` models `{**d, **e}`. -/
abbrev Dict (V : Type) : Type := List (String × V)

/-- Lookup, as Python `d[k]` / `d.get(k)`: the first binding of `k`. -/
def dGet {V : Type} : Dict V → String → Option V
  | [], _ => none
  | (k', v) :: rest, k => if k' = k then some v else dGet rest k

/-- Membership test, as Python `k in d.keys()`. -/
def dHasKey {V : Type} (d : Dict V) (k : String) : Bool :=
  (dGet d k).isSome

/-- Assignment `d[k] = v`: replaces the first binding of `k` in place,
or appends a new binding at the end (CPython insertion-order semantics). -/
def dSet {V : Type} : Dict V → String → V → Dict V
  | [], k, v => [(k, v)]
  | (k', v') :: rest, k, v =>
    if k' = k then (k, v) :: rest else (k', v') :: dSet rest k v

/-- Deletion `del d[k]`: removes the first binding of `k` (if any). -/
def dErase {V : Type} : Dict V → String → Dict V
  | [], _ => []
  | (k', v') :: rest, k =>
    if k' = k then rest else (k', v') :: dErase rest k

/-- Key list in insertion order, as Python `list(d.keys())`. -/
def dKeys {V : Type} (d : Dict V) : List String :=
  d.map Prod.fst

/-- The update `d.update(e)`: assign every binding of `e` into `d`,
in `e`'s order. -/
def pyUpdate {V : Type} (d e : Dict V) : Dict V :=
  e.foldl (fun acc kv => dSet acc kv.1 kv.2) d

/-- Dict-display merge `{**d, **e}`: a fresh dict filled from `d` then
updated from `e`. -/
def pyMerge {V : Type} (d e : Dict V) : Dict V :=
  pyUpdate (pyUpdate [] d) e

theorem dGet_dSet_self {V : Type} (d : Dict V) (k : String) (v : V) :
    dGet (dSet d k v) k = some v := by
  induction d with
  | nil => simp [dSet, dGet]
  | cons kv rest ih =>
    by_cases h : kv.1 = k
    · simp [dSet, h, dGet]
    · simp [dSet, h, dGet, ih]

theorem dGet_dSet_ne {V : Type} (d : Dict V) (k k' : String) (v : V)
    (h : k ≠ k') : dGet (dSet d k v) k' = dGet d k' := by
  induction d with
  | nil => simp [dSet, dGet, h]
  | cons kv rest ih =>
    by_cases hk : kv.1 = k
    · subst hk
      simp [dSet, dGet, h]
    · simp only [dSet, hk, if_false]
      by_cases hk' : kv.1 = k'
      · simp [dGet, hk']
      · simp [dGet, hk', ih]

theorem dKeys_dSet {V : Type} (d : Dict V) (k : String) (v : V) :
    dKeys (dSet d k v) = if k ∈ dKeys d then dKeys d else dKeys d ++ [k] := by
  induction d with
  | nil => simp [dSet, dKeys]
  | cons kv rest ih =>
    by_cases h : kv.1 = k
    · simp [dSet, h, dKeys]
    · have hne : ¬ k = kv.1 := fun hh => h hh.symm
      simp only [dSet, h, if_false, dKeys, List.map_cons, List.mem_cons, hne,
        false_or]
      simp only [dKeys] at ih
      rw [ih]
      by_cases hm : k ∈ List.map Prod.fst rest <;> simp [hm]

theorem mem_dKeys_dSet_self {V : Type} (d : Dict V) (k : String) (v : V) :
    k ∈ dKeys (dSet d k v) := by
  rw [dKeys_dSet]
  by_cases h : k ∈ dKeys d <;> simp [h]

theorem mem_dKeys_dSet_of_mem {V : Type} (d : Dict V) (k k' : String) (v : V)
    (h : k' ∈ dKeys d) : k' ∈ dKeys (dSet d k v) := by
  rw [dKeys_dSet]
  by_cases hm : k ∈ dKeys d <;> simp [hm, h]

theorem dGet_isSome_iff_mem_dKeys {V : Type} (d : Dict V) (k : String) :
    (dGet d k).isSome ↔ k ∈ dKeys d := by
  induction d with
  | nil => simp [dGet, dKeys]
  | cons kv rest ih =>
    by_cases h : kv.1 = k
    · simp [dGet, h, dKeys]
    · have : ¬ k = kv.1 := fun hh => h hh.symm
      simp [dGet, h, dKeys, this, ih]

theorem dGet_eq_none_iff_not_mem_dKeys {V : Type} (d : Dict V) (k : String) :
    dGet d k = none ↔ k ∉ dKeys d := by
  rw [← dGet_isSome_iff_mem_dKeys]
  cases dGet d k <;> simp

/-- Lookup in a Python-style update: a key bound in `e` (whose keys are
unique, as any real dict's are) takes `e`'s value, any other key keeps `d`'s. -/
theorem dGet_pyUpdate {V : Type} (d e : Dict V) (k : String)
    (hnd : (dKeys e).Nodup) :
    dGet (pyUpdate d e) k = (dGet e k).or (dGet d k) := by
  induction e generalizing d with
  | nil => simp [pyUpdate, dGet]
  | cons kv rest ih =>
    have hnd' : (dKeys rest).Nodup := by
      simpa [dKeys] using hnd.of_cons
    have hmem : kv.1 ∉ dKeys rest := by
      have h2 := hnd
      simp only [dKeys, List.map_cons, List.nodup_cons] at h2
      exact fun hc => h2.1 (by simpa [dKeys] using hc)
    have hstep : pyUpdate d (kv :: rest) = pyUpdate (dSet d kv.1 kv.2) rest := by
      simp [pyUpdate]
    rw [hstep, ih _ hnd']
    by_cases h : kv.1 = k
    · subst h
      have hz : dGet rest kv.1 = none := by
        rw [dGet_eq_none_iff_not_mem_dKeys]
        exact hmem
      simp [dGet, hz, dGet_dSet_self]
    · simp [dGet, h, dGet_dSet_ne _ _ _ _ h]

theorem dIsEmpty_iff_nil {V : Type} (d : Dict V) :
    d.isEmpty = true ↔ d = [] := by
  cases d <;> simp

/-!
## Python string primitives

Executable models of the Python string operations the code relies on,
defined over the character list of a `String` so that concrete instances
evaluate inside the kernel.
-/

/-- Python `str.strip()` (no argument): removes leading and trailing
whitespace. -/
def pyStrip (s : String) : String :=
  String.mk (((s.data.dropWhile Char.isWhitespace).reverse.dropWhile
    Char.isWhitespace).reverse)

/-- Python `str.lower()`: per-character lowercasing (ASCII suffices for the
identifiers involved). -/
def pyLower (s : String) : String :=
  String.mk (s.data.map Char.toLower)

/-- Python string `<`: lexicographic comparison of code points. -/
def pyStrLtAux : List Char → List Char → Bool
  | [], [] => false
  | [], _ :: _ => true
  | _ :: _, [] => false
  | a :: as, b :: bs =>
    if a.toNat < b.toNat then true
    else if b.toNat < a.toNat then false
    else pyStrLtAux as bs

/-- Python string `<=`: the negation of the reverse strict comparison. -/
def pyStrLe (a b : String) : Bool :=
  ! pyStrLtAux b.data a.data

/-!
## Data model

Collaborator-supplied objects (`pyThermoDB`) are abstracted by type
parameters: `V` for scalar property records returned by
`TableData.get_property`, `M` for matrix-table objects (`TableMatrixData`),
and `E` for equation objects (`TableEquation`).
-/

/-- A value stored in a component's datasource entry: either a scalar
property record obtained through `get_property`, or the matrix-table
object itself (`thermolink.py` stores `src_` for matrix groups). -/
inductive PValue (V M : Type) where
  | scalar (v : V)
  | matrix (m : M)
  deriving DecidableEq

/-- The object returned by `thermodb[component].select(src)` for a property
group, as case-analysed in `ThermoLink._set_datasource`:
a `TableData` (with its `data_structure()` COLUMNS and SYMBOL lists, which
may contain nulls, and its `get_property` accessor), a `TableMatrixData`
(with its possibly-absent `matrix_symbol` list), or an object of any other
type (which the source only logs and skips). -/
inductive PropGroup (V M : Type) where
  | tableData (columns : List (Option String)) (symbols : List (Option String))
      (getProperty : String → V)
  | tableMatrix (matrixSymbol : Option (List (Option String))) (self : M)
  | other

/-- The object returned by `select(eq)` for a function-group name, as
case-analysed in `ThermoLink._set_equationsource`: a `TableEquation`, or
anything else (logged and skipped).  The source also reads
`_val.return_symbols.keys()` into `original_symbols`, but that value is
never used (its use is commented out), so it is not modelled. -/
inductive FuncGroup (E : Type) where
  | tableEquation (eq : E)
  | other

/-- The per-component handle (`pyThermoDB.CompBuilder`): `properties` pairs
each `check_properties()` key with its `select` result, `functions` pairs
each `check_functions()` key with its `select` result. -/
structure CompBuilder (V M E : Type) where
  properties : Dict (PropGroup V M)
  functions : Dict (FuncGroup E)

/-- A per-component rule entry as stored in `_thermodb_rule`: a dict whose
`"DATA"` and `"EQUATIONS"` keys (others may occur) each hold a
native-symbol → alias mapping. -/
abbrev RuleEntry : Type := Dict (Dict String)

/-- A value of the built hub snapshot `{**_data, **_eq}`: a datasource
value or an equation object. -/
abbrev HubVal (V M E : Type) : Type := Sum (PValue V M) E

/-- The registry state of `ThermoDBHub`: the `_thermodb`, `_thermodb_rule`
and `_hub` dicts. -/
structure HubState (V M E : Type) where
  thermodb : Dict (CompBuilder V M E)
  thermodbRule : Dict RuleEntry
  hub : Dict (Dict (HubVal V M E))

/-!
## `ThermoLink._set_datasource` (docs/thermolink.py lines 16–191)
-/

/-- The rename applied in `_set_datasource`'s symbol pass: if the component
has a rule entry whose `DATA` block is truthy (non-`None` and non-empty)
and contains `symbol` as a key, the alias replaces the symbol. -/
def dataRename (thermodbRule : Dict RuleEntry)
    (component symbol : String) : String :=
  match dGet thermodbRule component with
  | none => symbol
  | some entry =>
    match dGet entry "DATA" with
    | none => symbol
    | some rules =>
      if rules.isEmpty then symbol
      else
        match dGet rules symbol with
        | some al => al
        | none => symbol

/-- The rename applied in `_set_datasource`'s header pass: the lookup key is
the stripped header, the renamed string replaces the raw symbol. -/
def headerRename (thermodbRule : Dict RuleEntry)
    (component header symbol : String) : String :=
  match dGet thermodbRule component with
  | none => symbol
  | some entry =>
    match dGet entry "DATA" with
    | none => symbol
    | some rules =>
      if rules.isEmpty then symbol
      else
        match dGet rules header with
        | some al => al
        | none => symbol

/-- One iteration of the symbol pass (`for symbol in symbols:` in
`_set_datasource`): null and `'None'` entries are skipped, the symbol is
stripped, the value is fetched (`get_property` for scalar tables, the
matrix object itself otherwise — abstracted by `val`), the `DATA` rename is
applied, and the entry is assigned. -/
def symbolStep {V M : Type} (thermodbRule : Dict RuleEntry) (component : String)
    (val : String → PValue V M) (acc : Dict (PValue V M)) (s : Option String) :
    Dict (PValue V M) :=
  match s with
  | none => acc
  | some s0 =>
    if s0 = "None" then acc
    else
      let s1 := pyStrip s0
      dSet acc (dataRename thermodbRule component s1) (val s1)

/-- The symbol pass over a group's symbol list. -/
def symbolPass {V M : Type} (thermodbRule : Dict RuleEntry) (component : String)
    (val : String → PValue V M) :
    List (Option String) → Dict (PValue V M) → Dict (PValue V M)
  | [], acc => acc
  | s :: rest, acc =>
    symbolPass thermodbRule component val rest
      (symbolStep thermodbRule component val acc s)

/-- One iteration of the header pass (`for header_ in header:`): null and
`'None'` headers are skipped; the header is stripped and looked up in the
raw COLUMNS list (`list.index`, a `ValueError` — hence an exception — if
absent); the parallel SYMBOL entry is fetched (`IndexError` if out of
range); null, empty and `'None'` symbols are skipped; the value is fetched
by the raw symbol; the `DATA` rename is applied with the *header* as the
rule key; and the entry is assigned. -/
def headerStep {V M : Type} (thermodbRule : Dict RuleEntry) (component : String)
    (columns symbols : List (Option String)) (getProperty : String → V)
    (acc : Dict (PValue V M)) (h : Option String) :
    Except String (Dict (PValue V M)) :=
  match h with
  | none => .ok acc
  | some h0 =>
    if h0 = "None" then .ok acc
    else
      let h1 := pyStrip h0
      match columns.findIdx? (fun col => col = some h1) with
      | none => .error "ValueError: header not in columns"
      | some i =>
        match symbols.get? i with
        | none => .error "IndexError: symbol index out of range"
        | some none => .ok acc
        | some (some s0) =>
          if s0 = "" then .ok acc
          else if s0 = "None" then .ok acc
          else
            .ok (dSet acc (headerRename thermodbRule component h1 s0)
              (PValue.scalar (getProperty s0)))

/-- The header pass: iterates `headerStep` over the headers (the COLUMNS
list again), indexing into the full `columns`/`symbols` lists. -/
def headerPassAux {V M : Type} (thermodbRule : Dict RuleEntry)
    (component : String) (columns symbols : List (Option String))
    (getProperty : String → V) :
    List (Option String) → Dict (PValue V M) →
      Except String (Dict (PValue V M))
  | [], acc => .ok acc
  | h :: rest, acc => do
    let acc' ← headerStep thermodbRule component columns symbols getProperty
      acc h
    headerPassAux thermodbRule component columns symbols getProperty rest acc'

/-- The header pass over a scalar table's COLUMNS list (run only when
`df_src is not None`, i.e. for `TableData` groups). -/
def headerPass {V M : Type} (thermodbRule : Dict RuleEntry) (component : String)
    (columns symbols : List (Option String)) (getProperty : String → V)
    (acc : Dict (PValue V M)) : Except String (Dict (PValue V M)) :=
  headerPassAux thermodbRule component columns symbols getProperty columns acc

/-- Processing of one property group in `_set_datasource`: `TableData`
groups run the symbol pass then the header pass; `TableMatrixData` groups
fail when `matrix_symbol` is `None` and otherwise run the symbol pass with
the matrix object as every symbol's value (`header = []`, `df_src = None`,
so no header pass); unknown types contribute nothing
(`symbols = []`, `header = []`). -/
def processGroup {V M : Type} (thermodbRule : Dict RuleEntry)
    (component : String) (src : PropGroup V M) (acc : Dict (PValue V M)) :
    Except String (Dict (PValue V M)) :=
  match src with
  | .tableData columns symbols getProperty =>
      headerPass thermodbRule component columns symbols getProperty
        (symbolPass thermodbRule component
          (fun s => PValue.scalar (getProperty s)) symbols acc)
  | .tableMatrix none _ => .error "Matrix symbol is None"
  | .tableMatrix (some syms) m =>
      .ok (symbolPass thermodbRule component (fun _ => PValue.matrix m) syms acc)
  | .other => .ok acc

/-- The `for src in data:` loop of `_set_datasource` over the property
groups of one component. -/
def groupsLoop {V M : Type} (thermodbRule : Dict RuleEntry)
    (component : String) :
    List (String × PropGroup V M) → Dict (PValue V M) →
      Except String (Dict (PValue V M))
  | [], acc => .ok acc
  | kv :: rest, acc => do
    let acc' ← processGroup thermodbRule component kv.2 acc
    groupsLoop thermodbRule component rest acc'

/-- The per-component body of `_set_datasource`: a component with an empty
`check_properties()` dict raises the fatal `'No data registered'`
exception; otherwise each property group is processed in order into the
component's fresh datasource dict. -/
def setDatasourceComponent {V M E : Type} (thermodbRule : Dict RuleEntry)
    (component : String) (builder : CompBuilder V M E) :
    Except String (Dict (PValue V M)) :=
  if builder.properties.isEmpty then
    .error "No data registered in thermodb"
  else
    groupsLoop thermodbRule component builder.properties []

/-- The loop of `ThermoLink._set_datasource` over the component list:
components absent from `thermodb` are skipped entirely; any exception
aborts the whole build (the enclosing `try` re-raises). -/
def setDatasourceLoop {V M E : Type} (thermodb : Dict (CompBuilder V M E))
    (thermodbRule : Dict RuleEntry) :
    List String → Dict (Dict (PValue V M)) →
      Except String (Dict (Dict (PValue V M)))
  | [], ds => .ok ds
  | c :: rest, ds =>
    match dGet thermodb c with
    | none => setDatasourceLoop thermodb thermodbRule rest ds
    | some b => do
        let dcomp ← setDatasourceComponent thermodbRule c b
        setDatasourceLoop thermodb thermodbRule rest (dSet ds c dcomp)

/-- Embeds `ThermoLink._set_datasource`. -/
def set_datasource {V M E : Type} (thermodb : Dict (CompBuilder V M E))
    (thermodbRule : Dict RuleEntry) (components : List String) :
    Except String (Dict (Dict (PValue V M))) :=
  setDatasourceLoop thermodb thermodbRule components []

/-!
## `ThermoLink._set_equationsource` (docs/thermolink.py lines 193–280)
-/

/-- The rename applied in `_set_equationsource`: if the component has a rule
entry whose `EQUATIONS` block is truthy and contains the (stripped)
equation identifier as a key, the alias replaces it. -/
def eqRename (thermodbRule : Dict RuleEntry)
    (component eqIdent : String) : String :=
  match dGet thermodbRule component with
  | none => eqIdent
  | some entry =>
    match dGet entry "EQUATIONS" with
    | none => eqIdent
    | some rules =>
      if rules.isEmpty then eqIdent
      else
        match dGet rules eqIdent with
        | some al => al
        | none => eqIdent

/-- The per-component body of `_set_equationsource`: every
`check_functions()` key is stripped, its `select` result is kept only when
it is a `TableEquation` (otherwise logged and skipped), the `EQUATIONS`
rename is applied, and the equation object is stored. -/
def setEquationsourceComponent {V M E : Type} (thermodbRule : Dict RuleEntry)
    (component : String) (builder : CompBuilder V M E) : Dict E :=
  builder.functions.foldl
    (fun acc kv =>
      match kv.2 with
      | .other => acc
      | .tableEquation e =>
          dSet acc (eqRename thermodbRule component (pyStrip kv.1)) e) []

/-- The loop of `ThermoLink._set_equationsource` over the component list:
each component present in `thermodb` gets an entry (possibly empty); no
exception can arise. -/
def setEquationsourceLoop {V M E : Type} (thermodb : Dict (CompBuilder V M E))
    (thermodbRule : Dict RuleEntry) :
    List String → Dict (Dict E) → Dict (Dict E)
  | [], ds => ds
  | c :: rest, ds =>
    match dGet thermodb c with
    | none => setEquationsourceLoop thermodb thermodbRule rest ds
    | some b =>
        setEquationsourceLoop thermodb thermodbRule rest
          (dSet ds c (setEquationsourceComponent thermodbRule c b))

/-- Embeds `ThermoLink._set_equationsource`. -/
def set_equationsource {V M E : Type} (thermodb : Dict (CompBuilder V M E))
    (thermodbRule : Dict RuleEntry) (components : List String) :
    Dict (Dict E) :=
  setEquationsourceLoop thermodb thermodbRule components []

/-!
## `ThermoDBHub` registry operations (docs/thermodbhub.py)

Log strings returned by the Python methods are elided; what each method
returns apart from its state effect is kept (`Bool` results, raised
exceptions as `Except.error`).
-/

/-- Embeds `ThermoDBHub.items` (lines 38–50): the registered identifiers. -/
def items {V M E : Type} (s : HubState V M E) : List String :=
  dKeys s.thermodb

/-- Embeds `ThermoDBHub.add_thermodb` (lines 424–450): stores the handle and
*unconditionally* resets the component's rule entry to a fresh empty dict.
The method accepts no `rules` argument in this version of the code. -/
def add_thermodb {V M E : Type} (s : HubState V M E) (name : String)
    (data : CompBuilder V M E) : Bool × HubState V M E :=
  (true,
   { s with
       thermodb := dSet s.thermodb name data
       thermodbRule := dSet s.thermodbRule name [] })

/-- Embeds `ThermoDBHub.update_thermodb` (lines 452–476): replaces the handle only. -/
def update_thermodb {V M E : Type} (s : HubState V M E) (name : String)
    (data : CompBuilder V M E) : Bool × HubState V M E :=
  (true, { s with thermodb := dSet s.thermodb name data })

/-- Embeds `ThermoDBHub.delete_thermodb` (lines 478–499): runs
`del self._thermodb[name]` then `del self._thermodb_rule[name]`.  A missing
key raises `KeyError`, which the `except` clause wraps and re-raises — the
method never returns `False`.  (When the handle exists but the rule entry
does not, the Python object has already lost the handle when the second
`del` raises; no claim settled here depends on that intermediate state.) -/
def delete_thermodb {V M E : Type} (s : HubState V M E) (name : String) :
    Except String (Bool × HubState V M E) :=
  match dGet s.thermodb name with
  | none => .error "Deleting record failed (KeyError)"
  | some _ =>
    match dGet s.thermodbRule name with
    | none => .error "Deleting record failed (KeyError on rule entry)"
    | some _ =>
        .ok (true,
          { s with
              thermodb := dErase s.thermodb name
              thermodbRule := dErase s.thermodbRule name })

/-- Embeds `ThermoDBHub.delete_thermodb_rule` (lines 394–422): returns `False`
when the name is unknown, otherwise *empties* the entry (the source assigns
`{}` rather than deleting the key). -/
def delete_thermodb_rule {V M E : Type} (s : HubState V M E) (name : String) :
    Bool × HubState V M E :=
  if (dGet s.thermodbRule name).isSome then
    (true, { s with thermodbRule := dSet s.thermodbRule name [] })
  else
    (false, s)

/-- The `DATA`/`EQUATIONS` block-merge loop of `add_thermodb_rule`
(lines 328–379): absent block — nothing happens; empty block — the fatal
`'... is empty!'` exception; otherwise every `(k, v)` pair of the incoming
block is assigned into the stored block in order.  (The source's transient
`... [key][k] = ` assignment of an empty dict, guarded by a key test
against the *outer* entry, is always overwritten by `v` in the next
statement and leaves no trace in the final state, so the loop body is
modelled as the direct assignment.) -/
def addRuleBlock (thermodbRule : Dict RuleEntry) (item blockKey : String)
    (block : Option (Dict String)) : Except String (Dict RuleEntry) :=
  match block with
  | none => .ok thermodbRule
  | some b =>
    if b.isEmpty then .error "block is empty!"
    else
      let entry := (dGet thermodbRule item).getD []
      let stored := (dGet entry blockKey).getD []
      let updated := pyUpdate stored b
      .ok (dSet thermodbRule item (dSet entry blockKey updated))

/-- Embeds `ThermoDBHub.add_thermodb_rule` (lines 242–392): creates the item's
entry when absent, seeds missing `DATA` and `EQUATIONS` sub-dicts with
empty dicts, re-checks the item's presence (dead code — it always
succeeds), then merges the incoming `DATA` and `EQUATIONS` blocks.
`isinstance(..., dict)` checks hold by typing.  The returned log string is
elided. -/
def add_thermodb_rule {V M E : Type} (s : HubState V M E) (item : String)
    (rules : RuleEntry) : Except String (HubState V M E) :=
  let tr1 :=
    if (dGet s.thermodbRule item).isNone then dSet s.thermodbRule item []
    else s.thermodbRule
  let e1 := (dGet tr1 item).getD []
  let tr2 :=
    if (dGet e1 "DATA").isNone then dSet tr1 item (dSet e1 "DATA" [])
    else tr1
  let e2 := (dGet tr2 item).getD []
  let tr3 :=
    if (dGet e2 "EQUATIONS").isNone then dSet tr2 item (dSet e2 "EQUATIONS" [])
    else tr2
  if (dGet tr3 item).isNone then
    .ok { s with thermodbRule := tr3 }
  else do
    let tr4 ← addRuleBlock tr3 item "DATA" (dGet rules "DATA")
    let tr5 ← addRuleBlock tr4 item "EQUATIONS" (dGet rules "EQUATIONS")
    .ok { s with thermodbRule := tr5 }

/-- The hub-snapshot loop of `ThermoDBHub.build` (lines 587–596): for each
component, `datasource[component]` and `equationsource[component]` are read
(a `KeyError` would propagate as an exception) and merged with
`{**_data, **_eq}`. -/
def buildHubLoop {V M E : Type} (datasource : Dict (Dict (PValue V M)))
    (equationsource : Dict (Dict E)) :
    List String → Dict (Dict (HubVal V M E)) →
      Except String (Dict (Dict (HubVal V M E)))
  | [], h => .ok h
  | c :: rest, h =>
    match dGet datasource c, dGet equationsource c with
    | some dta, some eqs =>
        buildHubLoop datasource equationsource rest
          (dSet h c
            (pyMerge (dta.map fun kv => (kv.1, Sum.inl kv.2))
              (eqs.map fun kv => (kv.1, Sum.inr kv.2))))
    | _, _ => .error "KeyError while building hub"

/-- Embeds `ThermoDBHub.build` (lines 527–600): recomputes the datasource and
equationsource from the current handles and rules over
`list(self._thermodb.keys())`, resets `_hub` and refills it per component,
and returns the pair. -/
def build {V M E : Type} (s : HubState V M E) :
    Except String (Dict (Dict (PValue V M)) × Dict (Dict E) × HubState V M E) := do
  let components := dKeys s.thermodb
  let datasource ← set_datasource s.thermodb s.thermodbRule components
  let equationsource := set_equationsource s.thermodb s.thermodbRule components
  let hub ← buildHubLoop datasource equationsource components []
  .ok (datasource, equationsource, { s with hub := hub })

/-!
## Python attribute semantics of `ThermoDBHub` (docs/thermodbhub.py 15–24)

`_thermodb = {}`, `_thermodb_rule = {}` and `_hub = {}` are class-level
bindings, evaluated once when the class object is created, so all three
name heap-allocated dict objects owned by the class.  `__init__` assigns no
instance attributes (its body is the no-op `ThermoLink().__init__()`).
On `_thermodb` and `_thermodb_rule` the methods only ever run
`self._thermodb[...] = ...` — an attribute *read* followed by mutation of
the referenced object, never an attribute assignment.  `_hub` is
different: `build` runs `self._hub = {}` (thermodbhub.py line 588), an
attribute *assignment* that binds a freshly allocated dict in the instance
`__dict__`, shadowing the class attribute from then on.  Reading
`self._thermodb` consults the instance `__dict__` first and falls back to
the class attribute.  The model makes the heap explicit: dict objects live
at addresses, the class holds one address per attribute, and an instance
optionally shadows each. -/

/-- Heap addresses of Python dict objects. -/
abbrev Addr : Type := Nat

/-- The world: the class object's three attribute bindings and a typed heap
for each of the three dict shapes. -/
structure PyWorld (V M E : Type) where
  classThermodb : Addr
  classRule : Addr
  classHub : Addr
  heapThermodb : Addr → Dict (CompBuilder V M E)
  heapRule : Addr → Dict RuleEntry
  heapHub : Addr → Dict (Dict (HubVal V M E))

/-- A `ThermoDBHub` instance: its `__dict__` may shadow each class
attribute with an instance-level binding (the code never creates one). -/
structure HubInstance where
  attrThermodb : Option Addr
  attrRule : Option Addr
  attrHub : Option Addr

/-- Embeds `ThermoDBHub()`: `__init__` binds no instance attributes, so the fresh
instance's `__dict__` is empty; the class state is untouched. -/
def newHub : HubInstance :=
  { attrThermodb := none, attrRule := none, attrHub := none }

/-- Attribute lookup `self._thermodb`: instance `__dict__` first, class
attribute second. -/
def thermodbAddr {V M E : Type} (w : PyWorld V M E) (h : HubInstance) : Addr :=
  h.attrThermodb.getD w.classThermodb

/-- Attribute lookup `self._thermodb_rule`. -/
def ruleAddr {V M E : Type} (w : PyWorld V M E) (h : HubInstance) : Addr :=
  h.attrRule.getD w.classRule

/-- Embeds `ThermoDBHub.add_thermodb` acting on the heap:
`self._thermodb[name] = data` and `self._thermodb_rule[name] = {}` mutate
the dict objects the two attributes resolve to. -/
def addThermodbW {V M E : Type} (w : PyWorld V M E) (h : HubInstance)
    (name : String) (data : CompBuilder V M E) : PyWorld V M E :=
  let a := thermodbAddr w h
  let r := ruleAddr w h
  { w with
      heapThermodb := fun x =>
        if x = a then dSet (w.heapThermodb a) name data else w.heapThermodb x
      heapRule := fun x =>
        if x = r then dSet (w.heapRule r) name [] else w.heapRule x }

/-- Embeds `ThermoDBHub.items` acting on the heap:
`list(self._thermodb.keys())`. -/
def itemsW {V M E : Type} (w : PyWorld V M E) (h : HubInstance) : List String :=
  dKeys (w.heapThermodb (thermodbAddr w h))

/-- Attribute lookup `self._hub`. -/
def hubAddr {V M E : Type} (w : PyWorld V M E) (h : HubInstance) : Addr :=
  h.attrHub.getD w.classHub

/-- Embeds `ThermoDBHub.build` acting on the heap (lines 577–600):
`self._thermodb` and `self._thermodb_rule` are only *read* (attribute
lookup, then pure computation), but `self._hub = {}` (line 588) is an
attribute *assignment*: a fresh empty dict object — its allocator-chosen
address is the `fresh` parameter — is bound in the instance `__dict__`,
shadowing the class attribute from then on; the per-component loop then
fills that new object in place.  (On the error path of the snapshot loop
the real instance would keep the fresh binding; only the success path is
relied on below.) -/
def buildW {V M E : Type} (w : PyWorld V M E) (h : HubInstance)
    (fresh : Addr) :
    Except String (PyWorld V M E × HubInstance ×
      Dict (Dict (PValue V M)) × Dict (Dict E)) := do
  let thermodb := w.heapThermodb (thermodbAddr w h)
  let rules := w.heapRule (ruleAddr w h)
  let components := dKeys thermodb
  let datasource ← set_datasource thermodb rules components
  let equationsource := set_equationsource thermodb rules components
  let h1 : HubInstance := { h with attrHub := some fresh }
  let hub ← buildHubLoop datasource equationsource components []
  let w1 : PyWorld V M E :=
    { w with heapHub := fun x => if x = fresh then hub else w.heapHub x }
  .ok (w1, h1, datasource, equationsource)

/-!
## Component keys and mixture identifiers
(utils/properties.py `set_component_key`, app.py
`build_mixture_model_source` lines 504–528)
-/

/-- A chemical component (`pythermodb_settings.models.Component`): name,
formula and state; the optional mole fraction plays no role in any claim
and is omitted. -/
structure Component where
  name : String
  formula : String
  state : String
  deriving DecidableEq

/-- Embeds `set_component_key` (utils/properties.py lines 13–51): case-insensitive
dispatch on the requested scheme, falling back to Formula-State. -/
def set_component_key (component : Component) (componentKey : String) : String :=
  if pyLower componentKey = pyLower "Name-State" then
    component.name ++ "-" ++ component.state
  else if pyLower componentKey = pyLower "Formula-State" then
    component.formula ++ "-" ++ component.state
  else if pyLower componentKey = pyLower "Name" then
    component.name
  else if pyLower componentKey = pyLower "Formula" then
    component.formula
  else if pyLower componentKey = pyLower "Name-Formula" then
    component.name ++ "-" ++ component.formula
  else if pyLower componentKey = pyLower "Name-Formula-State" then
    component.name ++ "-" ++ component.formula ++ "-" ++ component.state
  else
    component.formula ++ "-" ++ component.state

/-- Python `list.sort()` on strings: ascending lexicographic order. -/
def pySort (l : List String) : List String :=
  List.insertionSort (fun a b => pyStrLe a b = true) l

/-- The mixture name identifier built in `build_mixture_model_source`
(app.py lines 504–526): per-member `'Name'` keys, sorted alphabetically,
joined with the delimiter. -/
def mixtureNameId (components : List Component) (delimiter : String) : String :=
  String.intercalate delimiter
    (pySort (components.map (fun c => set_component_key c "Name")))

/-- The mixture formula identifier built in `build_mixture_model_source`
(app.py lines 516–528): per-member `'Formula'` keys, sorted, joined. -/
def mixtureFormulaId (components : List Component) (delimiter : String) :
    String :=
  String.intercalate delimiter
    (pySort (components.map (fun c => set_component_key c "Formula")))

/-!
## `Source.check_args` (thermo/source.py lines 274–325)

Called from `Source.eq_builder` (lines 483–486) for every component while
an equation descriptor is constructed.
-/

/-- One entry of a `TableEquation.args` dict: only its `'symbol'` field is
inspected by `check_args` (the rest of the record rides along in the
returned list and is abstracted away). -/
structure ArgVal where
  symbol : String
  deriving DecidableEq

/-- The `for arg_key, arg_value in args.items():` loop of `check_args`:
an argument whose symbol lies in the allowed list is appended to
`required_args`, any other raises the fatal
`'Args not in datasource!'` exception. -/
def checkArgsLoop (allowed : List String) :
    List (String × ArgVal) → List ArgVal → Except String (List ArgVal)
  | [], acc => .ok acc
  | (_, av) :: rest, acc =>
    if av.symbol ∈ allowed then checkArgsLoop allowed rest (acc ++ [av])
    else .error "Args not in datasource!"

/-- Embeds `Source.check_args`: reads `self.datasource[component_id]` (a
`KeyError` — hence an exception — when the component is absent), extends
its key list with the always-allowed `"P"` and `"T"`, and filters the
argument dict through `checkArgsLoop`. -/
def check_args {V M : Type} (datasource : Dict (Dict (PValue V M)))
    (componentId : String) (args : Dict ArgVal) :
    Except String (List ArgVal) :=
  match dGet datasource componentId with
  | none => .error "Finding args failed (KeyError)"
  | some dcomp => checkArgsLoop (dKeys dcomp ++ ["P", "T"]) args []

/-!
## `EquationSourceCore.calc` (thermo/equation_source.py lines 361–402)
-/

/-- The slice of `EquationSourceCore` state that `calc` touches: the stored
argument map `self._args` and the collaborator callable `self._fn`
(`TableEquation.cal`), which may raise — modelled as `Except`. -/
structure EquationSourceCore (V R : Type) where
  args : Dict V
  fn : Dict V → Except String R

/-- Embeds `EquationSourceCore.calc`: an empty keyword mapping is logged and
replaced by an empty dict (no semantic change); the callable is invoked on
`{**self._args, **input_args}`; an exception from the callable is logged
and converted to `None`. -/
def calc' {V R : Type} (es : EquationSourceCore V R) (inputArgs : Dict V) :
    Option R :=
  let inputArgs := if inputArgs.isEmpty then ([] : Dict V) else inputArgs
  match es.fn (pyMerge es.args inputArgs) with
  | .ok r => some r
  | .error _ => none

/-!
## Concrete sample states

Shared by witnesses and counterexamples below.  `sampleHub` registers one
component `"CO2-g"` whose handle exposes a single scalar table with column
header `"critical-pressure"` and symbol `"Pc"`, every property valued `7`,
under the DATA rule `Pc ↦ Pc1`.
-/

def sampleBuilder : CompBuilder Nat Nat Nat :=
  { properties := [("general-data",
      PropGroup.tableData [some "critical-pressure"] [some "Pc"]
        (fun _ => 7))],
    functions := [] }

def sampleHub : HubState Nat Nat Nat :=
  { thermodb := [("CO2-g", sampleBuilder)],
    thermodbRule := [("CO2-g", [("DATA", [("Pc", "Pc1")])])],
    hub := [] }

def sampleDS : Dict (Dict (PValue Nat Nat)) :=
  [("CO2-g", [("Pc1", PValue.scalar 7), ("Pc", PValue.scalar 7)])]

def sampleES : Dict (Dict Nat) :=
  [("CO2-g", [])]

def sampleHub1 : HubState Nat Nat Nat :=
  { sampleHub with
      hub := [("CO2-g",
        [("Pc1", Sum.inl (PValue.scalar 7)),
         ("Pc", Sum.inl (PValue.scalar 7))])] }

/-- A concrete world holding `sampleHub`'s registry content in the
class-owned dict objects at addresses 0, 1 and 2; address 3 is unused and
serves as the allocator's fresh address in the build theorems. -/
def sampleWorld : PyWorld Nat Nat Nat :=
  { classThermodb := 0, classRule := 1, classHub := 2,
    heapThermodb := fun a => if a = 0 then [("CO2-g", sampleBuilder)] else [],
    heapRule := fun a =>
      if a = 1 then [("CO2-g", [("DATA", [("Pc", "Pc1")])])] else [],
    heapHub := fun _ => [] }

/-!
## Claim theorems
-/

/-- Registry sharing through the class attribute: after
`h1.add_thermodb(name, data)` a second, separately constructed hub
`h2 = ThermoDBHub()` also reports `name` among `h2.items()`, because both
instances resolve `_thermodb` to the same class-owned dict object. -/
theorem hub_instances_share_class_registry {V M E : Type} (w : PyWorld V M E)
    (name : String) (data : CompBuilder V M E) :
    name ∈ itemsW (addThermodbW w newHub name data) newHub := by
  simp only [itemsW, addThermodbW, thermodbAddr, ruleAddr, newHub,
    Option.getD_none, if_pos rfl]
  exact mem_dKeys_dSet_self _ _ _

/-- C3 counterexample: `_hub` is *not* never rebound per instance —
`build` executes `self._hub = {}` (thermodbhub.py line 588).  Concretely:
a fresh instance has no `_hub` binding of its own, but after its build the
instance binds `_hub` to the freshly allocated dict at address 3, while a
second fresh instance still resolves `_hub` to the class object at
address 2 — the hub snapshot is no longer shared. -/
theorem hub_snapshot_rebinding_counterexample :
    newHub.attrHub = none ∧
    Except.map
        (fun out =>
          (out.2.1.attrHub, hubAddr out.1 out.2.1, hubAddr out.1 newHub))
        (buildW sampleWorld newHub 3) = .ok (some 3, 3, 2) :=
  ⟨rfl, rfl⟩

/-- C3 (amended): `_thermodb` and `_thermodb_rule` are class-level dict
objects that no method ever rebinds per instance, so after
`h1.add_thermodb(name, data)` a second, separately constructed hub
`h2 = ThermoDBHub()` also reports `name` among `h2.items()` — hubs created
by `init()` are not independent empty registries.  `_hub`, by contrast, is
rebound on the instance by every successful `build()` (`self._hub = {}`),
which leaves the two registry attributes and their heap objects
untouched. -/
theorem registry_sharing_extent {V M E : Type} (w : PyWorld V M E)
    (name : String) (data : CompBuilder V M E) (fresh : Addr) :
    name ∈ itemsW (addThermodbW w newHub name data) newHub ∧
    (∀ (w1 : PyWorld V M E) (h1 : HubInstance)
        (ds : Dict (Dict (PValue V M))) (es : Dict (Dict E)),
      buildW w newHub fresh = .ok (w1, h1, ds, es) →
      h1.attrHub = some fresh ∧
      h1.attrThermodb = none ∧ h1.attrRule = none ∧
      w1.heapThermodb = w.heapThermodb ∧ w1.heapRule = w.heapRule ∧
      w1.classThermodb = w.classThermodb ∧
      w1.classRule = w.classRule) := by
  constructor
  · exact hub_instances_share_class_registry w name data
  · intro w1 h1 ds es hok
    simp only [buildW, bind, Except.bind] at hok
    cases hds : set_datasource (w.heapThermodb (thermodbAddr w newHub))
        (w.heapRule (ruleAddr w newHub))
        (dKeys (w.heapThermodb (thermodbAddr w newHub))) with
    | error e => rw [hds] at hok; simp at hok
    | ok dsv =>
      rw [hds] at hok
      simp only at hok
      cases hhub : buildHubLoop (E := E) dsv
          (set_equationsource (w.heapThermodb (thermodbAddr w newHub))
            (w.heapRule (ruleAddr w newHub))
            (dKeys (w.heapThermodb (thermodbAddr w newHub))))
          (dKeys (w.heapThermodb (thermodbAddr w newHub))) [] with
      | error e => rw [hhub] at hok; simp at hok
      | ok hubv =>
        rw [hhub] at hok
        simp only [Except.ok.injEq, Prod.mk.injEq] at hok
        obtain ⟨hw, hh, _, _⟩ := hok
        subst hw
        subst hh
        exact ⟨rfl, rfl, rfl, rfl, rfl, rfl, rfl⟩

/-- C3 witness: the amended statement at the concrete sample world, the
build succeeding at fresh address 3. -/
theorem registry_sharing_extent_witness :
    "CO2-g" ∈ itemsW (addThermodbW sampleWorld newHub "CO2-g" sampleBuilder)
        newHub ∧
    (∀ (w1 : PyWorld Nat Nat Nat) (h1 : HubInstance)
        (ds : Dict (Dict (PValue Nat Nat))) (es : Dict (Dict Nat)),
      buildW sampleWorld newHub 3 = .ok (w1, h1, ds, es) →
      h1.attrHub = some 3 ∧
      h1.attrThermodb = none ∧ h1.attrRule = none ∧
      w1.heapThermodb = sampleWorld.heapThermodb ∧
      w1.heapRule = sampleWorld.heapRule ∧
      w1.classThermodb = sampleWorld.classThermodb ∧
      w1.classRule = sampleWorld.classRule) :=
  registry_sharing_extent sampleWorld "CO2-g" sampleBuilder 3

/-- C4 (evaluation at the failing input): `delete_thermodb` on an id absent
from the registry raises a wrapped `KeyError` instead of returning
`False` as its docstring and the spec promise. -/
theorem delete_thermodb_absent_raises :
    delete_thermodb
      ({ thermodb := [], thermodbRule := [], hub := [] } :
        HubState Nat Nat Nat) "CO2" =
      .error "Deleting record failed (KeyError)" := rfl

/-- C2 (evaluation at the failing input): `add_thermodb` — which accepts no
`rules` argument in this code — unconditionally resets an existing rule
entry to the empty dict instead of preserving or merging it. -/
theorem add_thermodb_resets_existing_rule_entry :
    dGet (add_thermodb
        ({ thermodb := [("CO2-g", sampleBuilder)],
           thermodbRule := [("CO2-g", [("DATA", [("Pc", "Pc1")])])],
           hub := [] } : HubState Nat Nat Nat)
        "CO2-g" sampleBuilder).2.thermodbRule "CO2-g" = some [] := rfl

/-- Introduction form of `build`: a successful datasource computation and a
successful hub-snapshot computation determine the result. -/
theorem build_eq_ok {V M E : Type} (s : HubState V M E)
    (dsv : Dict (Dict (PValue V M))) (hubv : Dict (Dict (HubVal V M E)))
    (hds : set_datasource s.thermodb s.thermodbRule (dKeys s.thermodb) =
      .ok dsv)
    (hhub : buildHubLoop dsv
      (set_equationsource s.thermodb s.thermodbRule (dKeys s.thermodb))
      (dKeys s.thermodb) [] = .ok hubv) :
    build s = .ok (dsv,
      set_equationsource s.thermodb s.thermodbRule (dKeys s.thermodb),
      { s with hub := hubv }) := by
  simp only [build, bind, Except.bind]
  rw [hds]
  simp only
  rw [hhub]

/-- Elimination form of `build`: a successful build decomposes into its
datasource, equationsource and hub-snapshot computations. -/
theorem build_ok_inv {V M E : Type} (s : HubState V M E)
    (ds : Dict (Dict (PValue V M))) (es : Dict (Dict E))
    (s₁ : HubState V M E) (h : build s = .ok (ds, es, s₁)) :
    set_datasource s.thermodb s.thermodbRule (dKeys s.thermodb) = .ok ds ∧
      es = set_equationsource s.thermodb s.thermodbRule (dKeys s.thermodb) ∧
      ∃ hubv, buildHubLoop ds es (dKeys s.thermodb) [] = .ok hubv ∧
        s₁ = { s with hub := hubv } := by
  simp only [build, bind, Except.bind] at h
  cases hds : set_datasource (E := E) s.thermodb s.thermodbRule
      (dKeys s.thermodb) with
  | error e => rw [hds] at h; simp at h
  | ok dsv =>
    rw [hds] at h
    simp only at h
    cases hhub : buildHubLoop (E := E) dsv
        (set_equationsource s.thermodb s.thermodbRule (dKeys s.thermodb))
        (dKeys s.thermodb) [] with
    | error e => rw [hhub] at h; simp at h
    | ok hubv =>
      rw [hhub] at h
      simp only [Except.ok.injEq, Prod.mk.injEq] at h
      obtain ⟨h1, h2, h3⟩ := h
      subst h1
      subst h2
      subst h3
      exact ⟨rfl, rfl, hubv, hhub, rfl⟩

/-- C7: `build` is idempotent — a successful build recomputes only from the
unchanged `_thermodb` and `_thermodb_rule` maps and replaces the cached
`_hub` snapshot, so an immediate second call returns the identical
datasource, equationsource and state. -/
theorem build_idempotent {V M E : Type} (s : HubState V M E)
    (ds : Dict (Dict (PValue V M))) (es : Dict (Dict E))
    (s₁ : HubState V M E) (h : build s = .ok (ds, es, s₁)) :
    build s₁ = .ok (ds, es, s₁) := by
  obtain ⟨hds, hes, hubv, hhub, hs₁⟩ := build_ok_inv s ds es s₁ h
  subst hes
  subst hs₁
  exact build_eq_ok { s with hub := hubv } ds hubv hds hhub

/-- C7 witness: a concrete successful build followed by its repetition. -/
theorem build_idempotent_witness :
    build sampleHub = .ok (sampleDS, sampleES, sampleHub1) ∧
      build sampleHub1 = .ok (sampleDS, sampleES, sampleHub1) :=
  ⟨rfl, build_idempotent sampleHub sampleDS sampleES sampleHub1 rfl⟩

/-- The datasource and equationsource loops populate the same keys when
started from equal key sets. -/
theorem setLoops_dKeys_eq {V M E : Type} (thermodb : Dict (CompBuilder V M E))
    (tr : Dict RuleEntry) :
    ∀ (components : List String) (ds0 : Dict (Dict (PValue V M)))
      (es0 : Dict (Dict E)) (res : Dict (Dict (PValue V M))),
      dKeys ds0 = dKeys es0 →
      setDatasourceLoop thermodb tr components ds0 = .ok res →
      dKeys res = dKeys (setEquationsourceLoop thermodb tr components es0) := by
  intro components
  induction components with
  | nil =>
    intro ds0 es0 res hk h
    simp only [setDatasourceLoop, Except.ok.injEq] at h
    subst h
    simpa [setEquationsourceLoop] using hk
  | cons c rest ih =>
    intro ds0 es0 res hk h
    simp only [setDatasourceLoop, setEquationsourceLoop] at h ⊢
    cases hb : dGet thermodb c with
    | none =>
      rw [hb] at h
      simp only at h ⊢
      exact ih ds0 es0 res hk h
    | some b =>
      rw [hb] at h
      simp only at h ⊢
      simp only [bind, Except.bind] at h
      cases hdc : setDatasourceComponent tr c b with
      | error e => rw [hdc] at h; simp at h
      | ok dcomp =>
        rw [hdc] at h
        simp only at h
        refine ih (dSet ds0 c dcomp)
          (dSet es0 c (setEquationsourceComponent tr c b)) res ?_ h
        rw [dKeys_dSet, dKeys_dSet, hk]

/-- C10: after a successful `build`, the datasource and the equationsource
carry exactly the same component keys — both loops run over
`list(self._thermodb.keys())` and insert an entry (possibly empty on the
equation side) for precisely the components present in `_thermodb`. -/
theorem build_same_component_keys {V M E : Type} (s : HubState V M E)
    (ds : Dict (Dict (PValue V M))) (es : Dict (Dict E))
    (s₁ : HubState V M E) (h : build s = .ok (ds, es, s₁)) :
    dKeys ds = dKeys es := by
  obtain ⟨hds, hes, _, _, _⟩ := build_ok_inv s ds es s₁ h
  subst hes
  exact setLoops_dKeys_eq s.thermodb s.thermodbRule (dKeys s.thermodb)
    [] [] ds rfl hds

/-- C10 witness: the concrete sample build, with both sources keyed by
exactly `["CO2-g"]`. -/
theorem build_same_component_keys_witness :
    build sampleHub = .ok (sampleDS, sampleES, sampleHub1) ∧
      dKeys sampleDS = dKeys sampleES :=
  ⟨rfl, build_same_component_keys sampleHub sampleDS sampleES sampleHub1 rfl⟩

/-- The argument-check loop succeeds exactly when every argument's symbol
is in the allowed list. -/
theorem checkArgsLoop_ok_iff (allowed : List String) :
    ∀ (args : List (String × ArgVal)) (acc : List ArgVal),
      (∃ l, checkArgsLoop allowed args acc = .ok l) ↔
        ∀ p ∈ args, p.2.symbol ∈ allowed := by
  intro args
  induction args with
  | nil =>
    intro acc
    simp [checkArgsLoop]
  | cons hd tl ih =>
    intro acc
    obtain ⟨k, av⟩ := hd
    by_cases hs : av.symbol ∈ allowed
    · simp only [checkArgsLoop, hs, if_pos]
      rw [ih]
      simp [hs]
    · simp [checkArgsLoop, hs]

/-- C5: during equation-descriptor construction (`eq_builder` calls
`check_args` for each component), the fatal `'Args not in datasource!'`
exception is raised precisely when some native argument symbol is neither
a key of the component's already-built datasource nor one of the
always-allowed `"P"`, `"T"`; when every symbol is covered, `check_args`
returns normally. -/
theorem check_args_fatal_iff {V M : Type}
    (datasource : Dict (Dict (PValue V M))) (componentId : String)
    (args : Dict ArgVal) (dcomp : Dict (PValue V M))
    (hc : dGet datasource componentId = some dcomp) :
    (∃ l, check_args datasource componentId args = .ok l) ↔
      ∀ p ∈ args, p.2.symbol ∈ dKeys dcomp ∨
        p.2.symbol = "P" ∨ p.2.symbol = "T" := by
  unfold check_args
  rw [hc]
  rw [checkArgsLoop_ok_iff]
  constructor
  · intro hall p hp
    have := hall p hp
    simpa using this
  · intro hall p hp
    have := hall p hp
    simpa using this

/-- C5 witness: a concrete datasource with keys `Pc1`, and arguments with
symbols `Pc1` and `T`, all resolvable. -/
theorem check_args_fatal_iff_witness :
    dGet ([("CO2-g", [("Pc1", PValue.scalar (7 : Nat))])] :
        Dict (Dict (PValue Nat Nat))) "CO2-g" =
      some [("Pc1", PValue.scalar 7)] ∧
    ((∃ l, check_args
        ([("CO2-g", [("Pc1", PValue.scalar (7 : Nat))])] :
          Dict (Dict (PValue Nat Nat))) "CO2-g"
        [("arg1", ⟨"Pc1"⟩), ("arg2", ⟨"T"⟩)] = .ok l) ↔
      ∀ p ∈ ([("arg1", ⟨"Pc1"⟩), ("arg2", ⟨"T"⟩)] : Dict ArgVal),
        p.2.symbol ∈
            dKeys ([("Pc1", PValue.scalar 7)] : Dict (PValue Nat Nat)) ∨
          p.2.symbol = "P" ∨ p.2.symbol = "T") :=
  ⟨rfl, check_args_fatal_iff _ _ _ _ rfl⟩

/-- Lookup in a `{**d, **e}` merge of two real dicts. -/
theorem dGet_pyMerge {V : Type} (a b : Dict V) (k : String)
    (ha : (dKeys a).Nodup) (hb : (dKeys b).Nodup) :
    dGet (pyMerge a b) k = (dGet b k).or (dGet a k) := by
  unfold pyMerge
  rw [dGet_pyUpdate _ _ _ hb, dGet_pyUpdate _ _ _ ha]
  cases dGet b k <;> cases dGet a k <;> simp [dGet]

/-- C6: `calc` invokes the stored callable on the stored default-argument
map merged with the caller's keyword overrides — the caller's value wins on
every shared key, the defaults fill the rest — and returns the callable's
result, or `None` when the invocation raises. -/
theorem calc_merge_and_result {V R : Type} (es : EquationSourceCore V R)
    (inputArgs : Dict V) (ha : (dKeys es.args).Nodup)
    (hi : (dKeys inputArgs).Nodup) :
    (∀ k v, dGet inputArgs k = some v →
      dGet (pyMerge es.args inputArgs) k = some v) ∧
    (∀ k, dGet inputArgs k = none →
      dGet (pyMerge es.args inputArgs) k = dGet es.args k) ∧
    (∀ r, es.fn (pyMerge es.args inputArgs) = .ok r →
      calc' es inputArgs = some r) ∧
    (∀ msg, es.fn (pyMerge es.args inputArgs) = .error msg →
      calc' es inputArgs = none) := by
  have hrun : calc' es inputArgs =
      match es.fn (pyMerge es.args inputArgs) with
      | .ok r => some r
      | .error _ => none := by
    unfold calc'
    cases inputArgs <;> simp
  refine ⟨?_, ?_, ?_, ?_⟩
  · intro k v hk
    rw [dGet_pyMerge _ _ _ ha hi, hk]
    rfl
  · intro k hk
    rw [dGet_pyMerge _ _ _ ha hi, hk]
    rfl
  · intro r hfn
    rw [hrun, hfn]
  · intro msg hfn
    rw [hrun, hfn]

/-- C6 witness: concrete defaults, one override on the shared key `"T"`,
and a callable returning the looked-up `"T"` value. -/
theorem calc_merge_and_result_witness :
    ((dKeys ([("T", 1), ("Pc", 2)] : Dict Nat)).Nodup ∧
      (dKeys ([("T", 300)] : Dict Nat)).Nodup) ∧
    ((∀ k v, dGet ([("T", 300)] : Dict Nat) k = some v →
      dGet (pyMerge ([("T", 1), ("Pc", 2)] : Dict Nat) [("T", 300)]) k =
        some v) ∧
    (∀ k, dGet ([("T", 300)] : Dict Nat) k = none →
      dGet (pyMerge ([("T", 1), ("Pc", 2)] : Dict Nat) [("T", 300)]) k =
        dGet ([("T", 1), ("Pc", 2)] : Dict Nat) k) ∧
    (∀ r, (fun d => match dGet d "T" with
        | some t => Except.ok t
        | none => Except.error "missing T")
        (pyMerge ([("T", 1), ("Pc", 2)] : Dict Nat) [("T", 300)]) = .ok r →
      calc' ⟨[("T", 1), ("Pc", 2)], fun d => match dGet d "T" with
        | some t => Except.ok t
        | none => Except.error "missing T"⟩ [("T", 300)] = some r) ∧
    (∀ msg, (fun d => match dGet d "T" with
        | some t => Except.ok t
        | none => Except.error "missing T")
        (pyMerge ([("T", 1), ("Pc", 2)] : Dict Nat) [("T", 300)]) =
          .error msg →
      calc' ⟨[("T", 1), ("Pc", 2)], fun d => match dGet d "T" with
        | some t => Except.ok t
        | none => Except.error "missing T"⟩ [("T", 300)] = none)) :=
  ⟨⟨by decide, by decide⟩,
    calc_merge_and_result
      ⟨[("T", 1), ("Pc", 2)], fun d => match dGet d "T" with
        | some t => Except.ok t
        | none => Except.error "missing T"⟩
      [("T", 300)] (by decide) (by decide)⟩

/-- Lexicographic trichotomy for the Python string comparison. -/
theorem pyStrLtAux_trichotomy : ∀ as bs : List Char,
    pyStrLtAux as bs = true ∨ as = bs ∨ pyStrLtAux bs as = true := by
  intro as
  induction as with
  | nil =>
    intro bs
    cases bs <;> simp [pyStrLtAux]
  | cons a as ih =>
    intro bs
    cases bs with
    | nil => simp [pyStrLtAux]
    | cons b bs =>
      rcases Nat.lt_trichotomy a.toNat b.toNat with h | h | h
      · left
        simp [pyStrLtAux, h]
      · have hab : a = b := Char.ext (UInt32.toNat.inj h)
        subst hab
        rcases ih bs with h1 | h1 | h1
        · left
          simp [pyStrLtAux, lt_irrefl, h1]
        · right; left
          rw [h1]
        · right; right
          simp [pyStrLtAux, lt_irrefl, h1]
      · right; right
        simp [pyStrLtAux, h]

/-- Asymmetry for the Python string comparison. -/
theorem pyStrLtAux_asymm : ∀ as bs : List Char,
    pyStrLtAux as bs = true → pyStrLtAux bs as = false := by
  intro as
  induction as with
  | nil =>
    intro bs
    cases bs <;> simp [pyStrLtAux]
  | cons a as ih =>
    intro bs
    cases bs with
    | nil => simp [pyStrLtAux]
    | cons b bs =>
      intro h
      by_cases h1 : a.toNat < b.toNat
      · simp [pyStrLtAux, h1, lt_asymm h1]
      · by_cases h2 : b.toNat < a.toNat
        · simp [pyStrLtAux, h1, h2] at h
        · simp only [pyStrLtAux, h1, h2, if_false] at h
          simp [pyStrLtAux, h1, h2, ih bs h]

/-- Transitivity for the Python string comparison. -/
theorem pyStrLtAux_trans : ∀ as bs cs : List Char,
    pyStrLtAux as bs = true → pyStrLtAux bs cs = true →
      pyStrLtAux as cs = true := by
  intro as
  induction as with
  | nil =>
    intro bs cs hab hbc
    cases bs with
    | nil => simp [pyStrLtAux] at hab
    | cons b bs =>
      cases cs with
      | nil => simp [pyStrLtAux] at hbc
      | cons c cs => simp [pyStrLtAux]
  | cons a as ih =>
    intro bs cs hab hbc
    cases bs with
    | nil => simp [pyStrLtAux] at hab
    | cons b bs =>
      cases cs with
      | nil => simp [pyStrLtAux] at hbc
      | cons c cs =>
        rcases Nat.lt_trichotomy a.toNat b.toNat with h1 | h1 | h1
        · rcases Nat.lt_trichotomy b.toNat c.toNat with h2 | h2 | h2
          · simp [pyStrLtAux, lt_trans h1 h2]
          · have hbc2 : b = c := Char.ext (UInt32.toNat.inj h2)
            subst hbc2
            simp [pyStrLtAux, h1]
          · simp [pyStrLtAux, lt_asymm h2, h2] at hbc
        · have hab2 : a = b := Char.ext (UInt32.toNat.inj h1)
          subst hab2
          simp only [pyStrLtAux, lt_irrefl, if_false] at hab
          rcases Nat.lt_trichotomy a.toNat c.toNat with h2 | h2 | h2
          · simp [pyStrLtAux, h2]
          · have hac : a = c := Char.ext (UInt32.toNat.inj h2)
            subst hac
            simp only [pyStrLtAux, lt_irrefl, if_false] at hbc ⊢
            exact ih bs cs hab hbc
          · simp [pyStrLtAux, lt_asymm h2, h2] at hbc
        · simp [pyStrLtAux, lt_asymm h1, h1] at hab

theorem pyStrLe_total (a b : String) :
    pyStrLe a b = true ∨ pyStrLe b a = true := by
  unfold pyStrLe
  rcases pyStrLtAux_trichotomy a.data b.data with h | h | h
  · left
    simp [pyStrLtAux_asymm _ _ h]
  · left
    rw [h]
    by_cases hx : pyStrLtAux b.data b.data = true
    · rw [pyStrLtAux_asymm _ _ hx] at hx
      exact absurd hx (by simp)
    · simp at hx
      simp [hx]
  · right
    simp [pyStrLtAux_asymm _ _ h]

theorem pyStrLe_trans (a b c : String) (h1 : pyStrLe a b = true)
    (h2 : pyStrLe b c = true) : pyStrLe a c = true := by
  unfold pyStrLe at h1 h2 ⊢
  simp only [Bool.not_eq_eq_eq_not, Bool.not_true] at h1 h2 ⊢
  rcases hx : pyStrLtAux c.data a.data with hfalse | htrue
  · rfl
  · exfalso
    rcases pyStrLtAux_trichotomy c.data b.data with h | h | h
    · rw [h] at h2
      exact Bool.noConfusion h2
    · rw [h] at hx
      rw [hx] at h1
      exact Bool.noConfusion h1
    · have := pyStrLtAux_trans b.data c.data a.data h hx
      rw [this] at h1
      exact Bool.noConfusion h1

theorem pyStrLe_antisymm (a b : String) (h1 : pyStrLe a b = true)
    (h2 : pyStrLe b a = true) : a = b := by
  unfold pyStrLe at h1 h2
  simp only [Bool.not_eq_eq_eq_not, Bool.not_true] at h1 h2
  rcases pyStrLtAux_trichotomy a.data b.data with h | h | h
  · rw [h] at h2
    exact Bool.noConfusion h2
  · cases a
    cases b
    simp only at h
    rw [h]
  · rw [h] at h1
    exact Bool.noConfusion h1

instance : IsTotal String (fun a b => pyStrLe a b = true) :=
  ⟨pyStrLe_total⟩

instance : IsTrans String (fun a b => pyStrLe a b = true) :=
  ⟨fun a b c => pyStrLe_trans a b c⟩

instance : IsAntisymm String (fun a b => pyStrLe a b = true) :=
  ⟨fun a b => pyStrLe_antisymm a b⟩

/-- Python `list.sort()` depends only on the multiset of elements. -/
theorem pySort_perm_eq (l₁ l₂ : List String) (hp : l₁.Perm l₂) :
    pySort l₁ = pySort l₂ := by
  unfold pySort
  exact List.eq_of_perm_of_sorted
    ((List.perm_insertionSort _ _).trans
      (hp.trans (List.perm_insertionSort _ _).symm))
    (List.sorted_insertionSort _ _) (List.sorted_insertionSort _ _)

/-- C9: the mixture name and formula identifiers built in
`build_mixture_model_source` — per-member keys sorted lexicographically
ascending, then joined with the delimiter — are invariant under any
permutation of the component list. -/
theorem mixture_ids_order_independent
    (components₁ components₂ : List Component) (delimiter : String)
    (hp : components₁.Perm components₂) :
    mixtureNameId components₁ delimiter =
        mixtureNameId components₂ delimiter ∧
      mixtureFormulaId components₁ delimiter =
        mixtureFormulaId components₂ delimiter := by
  constructor
  · simp only [mixtureNameId]
    rw [pySort_perm_eq _ _ (hp.map _)]
  · simp only [mixtureFormulaId]
    rw [pySort_perm_eq _ _ (hp.map _)]

/-- C9 witness: a two-component mixture listed in both orders. -/
theorem mixture_ids_order_independent_witness :
    ([⟨"ethanol", "C2H6O", "l"⟩, ⟨"methanol", "CH4O", "l"⟩] :
        List Component).Perm
      [⟨"methanol", "CH4O", "l"⟩, ⟨"ethanol", "C2H6O", "l"⟩] ∧
    (mixtureNameId [⟨"ethanol", "C2H6O", "l"⟩, ⟨"methanol", "CH4O", "l"⟩]
          "|" =
        mixtureNameId [⟨"methanol", "CH4O", "l"⟩, ⟨"ethanol", "C2H6O", "l"⟩]
          "|" ∧
      mixtureFormulaId
          [⟨"ethanol", "C2H6O", "l"⟩, ⟨"methanol", "CH4O", "l"⟩] "|" =
        mixtureFormulaId
          [⟨"methanol", "CH4O", "l"⟩, ⟨"ethanol", "C2H6O", "l"⟩] "|") :=
  ⟨List.Perm.swap _ _ _,
    mixture_ids_order_independent _ _ "|" (List.Perm.swap _ _ _)⟩

theorem dSet_dSet {V : Type} (d : Dict V) (k : String) (a b : V) :
    dSet (dSet d k a) k b = dSet d k b := by
  induction d with
  | nil => simp [dSet]
  | cons kv rest ih =>
    by_cases h : kv.1 = k
    · simp [dSet, h]
    · simp [dSet, h, ih]

/-- Effect of `add_thermodb_rule` on an id with no prior rule entry: the
entry is created, seeded with empty `DATA`/`EQUATIONS`, and filled from the
incoming blocks. -/
theorem add_thermodb_rule_fresh {V M E : Type} (s : HubState V M E)
    (item : String) (r : RuleEntry) (din : Dict String)
    (h0 : dGet s.thermodbRule item = none)
    (hd : dGet r "DATA" = some din) (hn : din ≠ [])
    (hE : ∀ b, dGet r "EQUATIONS" = some b → b ≠ []) :
    ∃ eqs : Dict String,
      add_thermodb_rule s item r =
        .ok { s with thermodbRule := dSet s.thermodbRule item [("DATA", pyUpdate [] din), ("EQUATIONS", eqs)] } := by
  have hne : din.isEmpty = false := by
    cases hie : din.isEmpty
    · rfl
    · exact absurd ((dIsEmpty_iff_nil din).mp hie) hn
  cases hq : dGet r "EQUATIONS" with
  | none =>
    refine ⟨[], ?_⟩
    simp only [add_thermodb_rule, h0, Option.isNone_none, if_true,
      dGet_dSet_self, Option.getD_some, addRuleBlock, hd, hq, hne,
      Bool.false_eq_true, if_false, dGet, Option.isNone_some, dSet,
      dSet_dSet, bind, Except.bind, String.reduceEq, reduceIte]
  | some b =>
    have hbe : b.isEmpty = false := by
      cases hie : b.isEmpty
      · rfl
      · exact absurd ((dIsEmpty_iff_nil b).mp hie) (hE b hq)
    refine ⟨pyUpdate [] b, ?_⟩
    simp only [add_thermodb_rule, h0, Option.isNone_none, if_true,
      dGet_dSet_self, Option.getD_some, addRuleBlock, hd, hq, hne, hbe,
      Bool.false_eq_true, if_false, dGet, Option.isNone_some, dSet,
      dSet_dSet, bind, Except.bind, String.reduceEq, reduceIte]

/-- Effect of `add_thermodb_rule` on an id whose entry already carries
`DATA` and `EQUATIONS` blocks: the incoming `DATA` pairs are assigned into
the stored `DATA` block one by one (Python `dict` update semantics), the
stored pairs not mentioned being left alone. -/
theorem add_thermodb_rule_existing {V M E : Type} (s : HubState V M E)
    (item : String) (r : RuleEntry) (dcur ecur din : Dict String)
    (hcur : dGet s.thermodbRule item =
      some [("DATA", dcur), ("EQUATIONS", ecur)])
    (hd : dGet r "DATA" = some din) (hn : din ≠ [])
    (hE : ∀ b, dGet r "EQUATIONS" = some b → b ≠ []) :
    ∃ eqs : Dict String,
      add_thermodb_rule s item r =
        .ok { s with thermodbRule := dSet s.thermodbRule item [("DATA", pyUpdate dcur din), ("EQUATIONS", eqs)] } := by
  have hne : din.isEmpty = false := by
    cases hie : din.isEmpty
    · rfl
    · exact absurd ((dIsEmpty_iff_nil din).mp hie) hn
  cases hq : dGet r "EQUATIONS" with
  | none =>
    refine ⟨ecur, ?_⟩
    simp only [add_thermodb_rule, hcur, Option.isNone_some, if_false,
      Option.getD_some, addRuleBlock, hd, hq, hne, Bool.false_eq_true,
      dGet_dSet_self, dGet, dSet, dSet_dSet, bind, Except.bind,
      Option.isNone_none, if_true, String.reduceEq, reduceIte]
  | some b =>
    have hbe : b.isEmpty = false := by
      cases hie : b.isEmpty
      · rfl
      · exact absurd ((dIsEmpty_iff_nil b).mp hie) (hE b hq)
    refine ⟨pyUpdate ecur b, ?_⟩
    simp only [add_thermodb_rule, hcur, Option.isNone_some, if_false,
      Option.getD_some, addRuleBlock, hd, hq, hne, hbe, Bool.false_eq_true,
      dGet_dSet_self, dGet, dSet, dSet_dSet, bind, Except.bind,
      Option.isNone_none, if_true, String.reduceEq, reduceIte]

/-- C8: two successive `add_thermodb_rule` calls for the same id whose
`DATA` blocks have disjoint key sets leave the stored `DATA` entry equal to
the union of both mappings — the second call assigns its pairs into the
stored block instead of replacing it, and the first call's pairs survive. -/
theorem add_thermodb_rule_merges_disjoint_data {V M E : Type}
    (s : HubState V M E) (item : String) (r1 r2 : RuleEntry)
    (d1 d2 : Dict String)
    (h0 : dGet s.thermodbRule item = none)
    (hd1 : dGet r1 "DATA" = some d1) (hn1 : d1 ≠ [])
    (hd2 : dGet r2 "DATA" = some d2) (hn2 : d2 ≠ [])
    (hnd1 : (dKeys d1).Nodup) (hnd2 : (dKeys d2).Nodup)
    (hdisj : ∀ k, k ∈ dKeys d1 → k ∉ dKeys d2)
    (hE1 : ∀ b, dGet r1 "EQUATIONS" = some b → b ≠ [])
    (hE2 : ∀ b, dGet r2 "EQUATIONS" = some b → b ≠ []) :
    ∃ (s1 s2 : HubState V M E) (entry : RuleEntry) (dfinal : Dict String),
      add_thermodb_rule s item r1 = .ok s1 ∧
      add_thermodb_rule s1 item r2 = .ok s2 ∧
      dGet s2.thermodbRule item = some entry ∧
      dGet entry "DATA" = some dfinal ∧
      ∀ k, dGet dfinal k = (dGet d1 k).or (dGet d2 k) := by
  obtain ⟨eqs1, h1⟩ := add_thermodb_rule_fresh s item r1 d1 h0 hd1 hn1 hE1
  set s1 : HubState V M E := { s with thermodbRule := dSet s.thermodbRule item [("DATA", pyUpdate [] d1), ("EQUATIONS", eqs1)] } with hs1
  have hcur : dGet s1.thermodbRule item =
      some [("DATA", pyUpdate [] d1), ("EQUATIONS", eqs1)] := by
    rw [hs1]
    exact dGet_dSet_self _ _ _
  obtain ⟨eqs2, h2⟩ :=
    add_thermodb_rule_existing s1 item r2 (pyUpdate [] d1) eqs1 d2 hcur
      hd2 hn2 hE2
  refine ⟨s1, _, [("DATA", pyUpdate (pyUpdate [] d1) d2), ("EQUATIONS", eqs2)],
    pyUpdate (pyUpdate [] d1) d2, h1, h2, ?_, ?_, ?_⟩
  · exact dGet_dSet_self _ _ _
  · rfl
  · intro k
    rw [dGet_pyUpdate _ _ _ hnd2, dGet_pyUpdate _ _ _ hnd1]
    cases hk1 : dGet d1 k with
    | none =>
      cases hk2 : dGet d2 k <;> simp [dGet]
    | some v =>
      have hmem1 : k ∈ dKeys d1 := by
        rw [← dGet_isSome_iff_mem_dKeys, hk1]
        rfl
      have hk2 : dGet d2 k = none := by
        rw [dGet_eq_none_iff_not_mem_dKeys]
        exact hdisj k hmem1
      simp [hk2, dGet]

/-- C8 witness: rules `Pc ↦ Pc1` then `Tc ↦ Tc1` added for the same id of
an initially empty registry. -/
theorem add_thermodb_rule_merges_disjoint_data_witness :
    dGet ([] : Dict RuleEntry) "CO2" = none ∧
    (∃ (s1 s2 : HubState Nat Nat Nat) (entry : RuleEntry)
        (dfinal : Dict String),
      add_thermodb_rule
          ({ thermodb := [], thermodbRule := [], hub := [] } :
            HubState Nat Nat Nat)
          "CO2" [("DATA", [("Pc", "Pc1")])] = .ok s1 ∧
      add_thermodb_rule s1 "CO2" [("DATA", [("Tc", "Tc1")])] = .ok s2 ∧
      dGet s2.thermodbRule "CO2" = some entry ∧
      dGet entry "DATA" = some dfinal ∧
      ∀ k, dGet dfinal k =
        (dGet [("Pc", "Pc1")] k).or (dGet [("Tc", "Tc1")] k)) :=
  ⟨rfl,
    add_thermodb_rule_merges_disjoint_data
      { thermodb := [], thermodbRule := [], hub := [] } "CO2"
      [("DATA", [("Pc", "Pc1")])] [("DATA", [("Tc", "Tc1")])]
      [("Pc", "Pc1")] [("Tc", "Tc1")] rfl rfl (by decide) rfl (by decide)
      (by decide) (by decide) (by decide)
      (fun b hb => Option.noConfusion hb)
      (fun b hb => Option.noConfusion hb)⟩

/-!
## Datasource-pass lemmas for the rename claim
-/

theorem not_mem_dKeys_dSet {V : Type} (d : Dict V) (k x : String) (v : V)
    (hx : x ∉ dKeys d) (hk : x ≠ k) : x ∉ dKeys (dSet d k v) := by
  rw [dKeys_dSet]
  by_cases hm : k ∈ dKeys d
  · simp [hm, hx]
  · simp [hm, hx, hk]

theorem mem_symbolPass_mono {V M : Type} (tr : Dict RuleEntry) (c : String)
    (val : String → PValue V M) :
    ∀ (syms : List (Option String)) (acc : Dict (PValue V M)) (x : String),
      x ∈ dKeys acc → x ∈ dKeys (symbolPass tr c val syms acc) := by
  intro syms
  induction syms with
  | nil =>
    intro acc x hx
    exact hx
  | cons sy rest ih =>
    intro acc x hx
    simp only [symbolPass]
    apply ih
    cases sy with
    | none => exact hx
    | some s0 =>
      simp only [symbolStep]
      by_cases h : s0 = "None"
      · simp only [h, if_pos rfl]
        exact hx
      · simp only [h, if_false]
        exact mem_dKeys_dSet_of_mem _ _ _ _ hx

theorem mem_headerStep_mono {V M : Type} (tr : Dict RuleEntry) (c : String)
    (columns symbols : List (Option String)) (gp : String → V)
    (acc res : Dict (PValue V M)) (h : Option String)
    (hok : headerStep (M := M) tr c columns symbols gp acc h = .ok res)
    (x : String) (hx : x ∈ dKeys acc) : x ∈ dKeys res := by
  cases h with
  | none =>
    simp only [headerStep] at hok
    cases hok
    exact hx
  | some h0 =>
    simp only [headerStep] at hok
    by_cases hN : h0 = "None"
    · rw [if_pos hN] at hok
      cases hok
      exact hx
    · rw [if_neg hN] at hok
      cases hidx : columns.findIdx? (fun col => col = some (pyStrip h0)) with
      | none => rw [hidx] at hok; exact Except.noConfusion hok
      | some i =>
        rw [hidx] at hok
        simp only at hok
        cases hsy : symbols.get? i with
        | none => rw [hsy] at hok; exact Except.noConfusion hok
        | some so =>
          rw [hsy] at hok
          cases so with
          | none =>
            simp only at hok
            cases hok
            exact hx
          | some s0 =>
            simp only at hok
            by_cases he : s0 = ""
            · rw [if_pos he] at hok
              cases hok
              exact hx
            · rw [if_neg he] at hok
              by_cases hn : s0 = "None"
              · rw [if_pos hn] at hok
                cases hok
                exact hx
              · rw [if_neg hn] at hok
                cases hok
                exact mem_dKeys_dSet_of_mem _ _ _ _ hx

theorem mem_headerPassAux_mono {V M : Type} (tr : Dict RuleEntry)
    (c : String) (columns symbols : List (Option String)) (gp : String → V) :
    ∀ (hs : List (Option String)) (acc res : Dict (PValue V M)),
      headerPassAux tr c columns symbols gp hs acc = .ok res →
      ∀ x, x ∈ dKeys acc → x ∈ dKeys res := by
  intro hs
  induction hs with
  | nil =>
    intro acc res hok x hx
    simp only [headerPassAux, Except.ok.injEq] at hok
    subst hok
    exact hx
  | cons h rest ih =>
    intro acc res hok x hx
    simp only [headerPassAux, bind, Except.bind] at hok
    cases hstep : headerStep (M := M) tr c columns symbols gp acc h with
    | error e => rw [hstep] at hok; exact Except.noConfusion hok
    | ok acc' =>
      rw [hstep] at hok
      simp only at hok
      exact ih acc' res hok x
        (mem_headerStep_mono tr c columns symbols gp acc acc' h hstep x hx)

theorem mem_processGroup_mono {V M : Type} (tr : Dict RuleEntry) (c : String)
    (src : PropGroup V M) (acc res : Dict (PValue V M))
    (hok : processGroup tr c src acc = .ok res)
    (x : String) (hx : x ∈ dKeys acc) : x ∈ dKeys res := by
  cases src with
  | tableData columns symbols gp =>
    simp only [processGroup] at hok
    exact mem_headerPassAux_mono tr c columns symbols gp columns _ res hok x
      (mem_symbolPass_mono tr c _ symbols acc x hx)
  | tableMatrix ms m =>
    cases ms with
    | none => exact Except.noConfusion hok
    | some syms =>
      simp only [processGroup, Except.ok.injEq] at hok
      subst hok
      exact mem_symbolPass_mono tr c _ syms acc x hx
  | other =>
    simp only [processGroup, Except.ok.injEq] at hok
    subst hok
    exact hx

theorem mem_groupsLoop_mono {V M : Type} (tr : Dict RuleEntry) (c : String) :
    ∀ (props : List (String × PropGroup V M)) (acc res : Dict (PValue V M)),
      groupsLoop tr c props acc = .ok res →
      ∀ x, x ∈ dKeys acc → x ∈ dKeys res := by
  intro props
  induction props with
  | nil =>
    intro acc res hok x hx
    simp only [groupsLoop, Except.ok.injEq] at hok
    subst hok
    exact hx
  | cons kv rest ih =>
    intro acc res hok x hx
    simp only [groupsLoop, bind, Except.bind] at hok
    cases hg : processGroup tr c kv.2 acc with
    | error e => rw [hg] at hok; exact Except.noConfusion hok
    | ok acc' =>
      rw [hg] at hok
      simp only at hok
      exact ih acc' res hok x
        (mem_processGroup_mono tr c kv.2 acc acc' hg x hx)

theorem dataRename_of_rule (tr : Dict RuleEntry) (c : String)
    (entry : RuleEntry) (drules : Dict String) (sym al : String)
    (hr : dGet tr c = some entry) (hdr : dGet entry "DATA" = some drules)
    (hal : dGet drules sym = some al) :
    dataRename tr c sym = al := by
  have hne : drules.isEmpty = false := by
    cases drules with
    | nil => exact absurd hal (by simp [dGet])
    | cons kv rest => rfl
  unfold dataRename
  simp only [hr, hdr, hne, Bool.false_eq_true, if_false, hal]

theorem symbolPass_writes_renamed {V M : Type} (tr : Dict RuleEntry)
    (c : String) (val : String → PValue V M) :
    ∀ (syms : List (Option String)) (acc : Dict (PValue V M)) (sPc : String),
      some sPc ∈ syms → sPc ≠ "None" →
      dataRename tr c (pyStrip sPc) ∈ dKeys (symbolPass tr c val syms acc) := by
  intro syms
  induction syms with
  | nil =>
    intro acc sPc hmem
    exact absurd hmem (by simp)
  | cons sy rest ih =>
    intro acc sPc hmem hnn
    rcases List.mem_cons.mp hmem with heq | htl
    · subst heq
      simp only [symbolPass, symbolStep]
      rw [if_neg hnn]
      exact mem_symbolPass_mono tr c val rest _ _
        (mem_dKeys_dSet_self _ _ _)
    · simp only [symbolPass]
      exact ih _ sPc htl hnn

theorem processGroup_writes_renamed {V M : Type} (tr : Dict RuleEntry)
    (c : String) (columns symbols : List (Option String)) (gp : String → V)
    (sPc : String) (hsym : some sPc ∈ symbols) (hnn : sPc ≠ "None")
    (acc res : Dict (PValue V M))
    (hok : processGroup tr c (PropGroup.tableData columns symbols gp) acc =
      .ok res) :
    dataRename tr c (pyStrip sPc) ∈ dKeys res := by
  simp only [processGroup] at hok
  exact mem_headerPassAux_mono tr c columns symbols gp columns _ res hok _
    (symbolPass_writes_renamed tr c _ symbols acc sPc hsym hnn)

theorem groupsLoop_mem_of_group {V M : Type} (tr : Dict RuleEntry)
    (c K : String) (gname : String) (g : PropGroup V M)
    (hwrite : ∀ (acc res : Dict (PValue V M)),
      processGroup tr c g acc = .ok res → K ∈ dKeys res) :
    ∀ (props : List (String × PropGroup V M)) (acc res : Dict (PValue V M)),
      (gname, g) ∈ props → groupsLoop tr c props acc = .ok res →
      K ∈ dKeys res := by
  intro props
  induction props with
  | nil =>
    intro acc res hmem
    exact absurd hmem (by simp)
  | cons kv rest ih =>
    intro acc res hmem hok
    simp only [groupsLoop, bind, Except.bind] at hok
    cases hg : processGroup tr c kv.2 acc with
    | error e => rw [hg] at hok; exact Except.noConfusion hok
    | ok acc' =>
      rw [hg] at hok
      simp only at hok
      rcases List.mem_cons.mp hmem with heq | htl
      · have hkv2 : kv.2 = g := by rw [← heq]
        rw [hkv2] at hg
        exact mem_groupsLoop_mono tr c rest acc' res hok K
          (hwrite acc acc' hg)
      · exact ih acc' res htl hok

theorem setDatasourceLoop_preserve {V M E : Type}
    (thermodb : Dict (CompBuilder V M E)) (tr : Dict RuleEntry) (c : String) :
    ∀ (comps : List String) (ds0 res : Dict (Dict (PValue V M))),
      c ∉ comps → setDatasourceLoop thermodb tr comps ds0 = .ok res →
      dGet res c = dGet ds0 c := by
  intro comps
  induction comps with
  | nil =>
    intro ds0 res _ hok
    simp only [setDatasourceLoop, Except.ok.injEq] at hok
    subst hok
    rfl
  | cons c' rest ih =>
    intro ds0 res hnm hok
    have hne : c' ≠ c := fun h => hnm (by simp [h])
    have hnr : c ∉ rest := fun h => hnm (by simp [h])
    simp only [setDatasourceLoop] at hok
    cases hb : dGet thermodb c' with
    | none =>
      rw [hb] at hok
      exact ih ds0 res hnr hok
    | some b =>
      rw [hb] at hok
      simp only [bind, Except.bind] at hok
      cases hdc : setDatasourceComponent (E := E) tr c' b with
      | error e => rw [hdc] at hok; exact Except.noConfusion hok
      | ok dcomp =>
        rw [hdc] at hok
        simp only at hok
        rw [ih _ res hnr hok]
        exact dGet_dSet_ne _ _ _ _ hne

theorem setDatasourceLoop_get {V M E : Type}
    (thermodb : Dict (CompBuilder V M E)) (tr : Dict RuleEntry)
    (c : String) (b : CompBuilder V M E) (hb : dGet thermodb c = some b) :
    ∀ (comps : List String) (ds0 res : Dict (Dict (PValue V M))),
      setDatasourceLoop thermodb tr comps ds0 = .ok res → c ∈ comps →
      ∃ dcomp, setDatasourceComponent (E := E) tr c b = .ok dcomp ∧
        dGet res c = some dcomp := by
  intro comps
  induction comps with
  | nil =>
    intro ds0 res _ hmem
    exact absurd hmem (by simp)
  | cons c' rest ih =>
    intro ds0 res hok hmem
    simp only [setDatasourceLoop] at hok
    by_cases hc : c' = c
    · subst hc
      rw [hb] at hok
      simp only [bind, Except.bind] at hok
      cases hdc : setDatasourceComponent (E := E) tr c' b with
      | error e => rw [hdc] at hok; exact Except.noConfusion hok
      | ok dcomp =>
        rw [hdc] at hok
        simp only at hok
        by_cases hcr : c' ∈ rest
        · obtain ⟨d2, h1, h2⟩ := ih _ res hok hcr
          rw [hdc] at h1
          exact ⟨d2, h1, h2⟩
        · refine ⟨dcomp, rfl, ?_⟩
          rw [setDatasourceLoop_preserve thermodb tr c' rest _ res hcr hok]
          exact dGet_dSet_self _ _ _
    · have hcr : c ∈ rest := by
        rcases List.mem_cons.mp hmem with h | h
        · exact absurd h.symm hc
        · exact h
      cases hb' : dGet thermodb c' with
      | none =>
        rw [hb'] at hok
        exact ih ds0 res hok hcr
      | some b' =>
        rw [hb'] at hok
        simp only [bind, Except.bind] at hok
        cases hdc : setDatasourceComponent (E := E) tr c' b' with
        | error e => rw [hdc] at hok; exact Except.noConfusion hok
        | ok dcomp' =>
          rw [hdc] at hok
          simp only at hok
          exact ih _ res hok hcr

/-- C1 counterexample: with the DATA rule `Pc ↦ Pc1` and a scalar table
whose column header `critical-pressure` carries symbol `Pc`, the built
datasource contains `Pc1` *and also* `Pc` — the header-derived second pass
looks the header up among the rule keys, does not find it, and re-adds the
raw symbol. -/
theorem scalar_rename_counterexample :
    dGet ((dGet sampleHub.thermodbRule "CO2-g").getD []) "DATA" =
      some [("Pc", "Pc1")] ∧
    build sampleHub = .ok (sampleDS, sampleES, sampleHub1) ∧
    dHasKey ((dGet sampleDS "CO2-g").getD []) "Pc1" = true ∧
    dHasKey ((dGet sampleDS "CO2-g").getD []) "Pc" = true :=
  ⟨rfl, rfl, rfl, rfl⟩

/-- C1 (amended): with a DATA rule mapping `Pc ↦ Pc1`, a successful build
always yields the alias key `Pc1` in the component's datasource; the
symbol-based first pass never introduces the native key `Pc` (provided no
rule alias itself equals `Pc`); but the header-derived second pass may
re-add `Pc`, so the built datasource need not lack it. -/
theorem scalar_rename_amended {V M E : Type} (s : HubState V M E)
    (c : String) (b : CompBuilder V M E) (entry : RuleEntry)
    (drules : Dict String) (gname : String)
    (columns symbols : List (Option String)) (gp : String → V)
    (sPc : String) (ds : Dict (Dict (PValue V M))) (es : Dict (Dict E))
    (s₁ : HubState V M E)
    (hb : dGet s.thermodb c = some b)
    (hr : dGet s.thermodbRule c = some entry)
    (hdr : dGet entry "DATA" = some drules)
    (hPc : dGet drules "Pc" = some "Pc1")
    (hgrp : (gname, PropGroup.tableData columns symbols gp) ∈ b.properties)
    (hsym : some sPc ∈ symbols) (hnn : sPc ≠ "None")
    (hstrip : pyStrip sPc = "Pc")
    (hbuild : build s = .ok (ds, es, s₁)) :
    (∃ dcomp, dGet ds c = some dcomp ∧ "Pc1" ∈ dKeys dcomp) ∧
    (∀ (val : String → PValue V M) (syms : List (Option String))
        (acc : Dict (PValue V M)),
      (∀ k v, dGet drules k = some v → v ≠ "Pc") →
      "Pc" ∉ dKeys acc →
      "Pc" ∉ dKeys (symbolPass s.thermodbRule c val syms acc)) := by
  constructor
  · obtain ⟨hds, _, _, _, _⟩ := build_ok_inv s ds es s₁ hbuild
    have hcmem : c ∈ dKeys s.thermodb := by
      rw [← dGet_isSome_iff_mem_dKeys, hb]
      rfl
    obtain ⟨dcomp, hsdc, hget⟩ :=
      setDatasourceLoop_get s.thermodb s.thermodbRule c b hb
        (dKeys s.thermodb) [] ds hds hcmem
    refine ⟨dcomp, hget, ?_⟩
    unfold setDatasourceComponent at hsdc
    by_cases hpe : b.properties.isEmpty
    · rw [if_pos hpe] at hsdc
      exact Except.noConfusion hsdc
    · rw [if_neg hpe] at hsdc
      have hkey : dataRename s.thermodbRule c "Pc" = "Pc1" :=
        dataRename_of_rule s.thermodbRule c entry drules "Pc" "Pc1" hr hdr hPc
      refine groupsLoop_mem_of_group s.thermodbRule c "Pc1" gname
        (PropGroup.tableData columns symbols gp) ?_ b.properties [] dcomp
        hgrp hsdc
      intro acc res hok
      have := processGroup_writes_renamed s.thermodbRule c columns symbols gp
        sPc hsym hnn acc res hok
      rw [hstrip, hkey] at this
      exact this
  · intro val syms
    induction syms with
    | nil =>
      intro acc _ hacc
      exact hacc
    | cons sy rest ih =>
      intro acc hAlias hacc
      simp only [symbolPass]
      apply ih _ hAlias
      cases sy with
      | none => exact hacc
      | some s0 =>
        simp only [symbolStep]
        by_cases hN : s0 = "None"
        · rw [if_pos hN]
          exact hacc
        · rw [if_neg hN]
          apply not_mem_dKeys_dSet _ _ _ _ hacc
          intro hPcEq
          have hdne : drules.isEmpty = false := by
            cases drules with
            | nil => exact absurd hPc (by simp [dGet])
            | cons kv rest => rfl
          unfold dataRename at hPcEq
          simp only [hr, hdr, hdne, Bool.false_eq_true, if_false] at hPcEq
          cases hlook : dGet drules (pyStrip s0) with
          | none =>
            rw [hlook] at hPcEq
            simp only at hPcEq
            rw [← hPcEq] at hlook
            rw [hPc] at hlook
            exact Option.noConfusion hlook
          | some al =>
            rw [hlook] at hPcEq
            simp only at hPcEq
            exact hAlias _ _ hlook hPcEq.symm

/-- C1 witness: the amended statement at the concrete sample hub. -/
theorem scalar_rename_amended_witness :
    build sampleHub = .ok (sampleDS, sampleES, sampleHub1) ∧
    ((∃ dcomp, dGet sampleDS "CO2-g" = some dcomp ∧ "Pc1" ∈ dKeys dcomp) ∧
     (∀ (val : String → PValue Nat Nat) (syms : List (Option String))
         (acc : Dict (PValue Nat Nat)),
       (∀ k v, dGet [("Pc", "Pc1")] k = some v → v ≠ "Pc") →
       "Pc" ∉ dKeys acc →
       "Pc" ∉ dKeys (symbolPass sampleHub.thermodbRule "CO2-g"
         val syms acc))) :=
  ⟨rfl,
    scalar_rename_amended sampleHub "CO2-g" sampleBuilder
      [("DATA", [("Pc", "Pc1")])] [("Pc", "Pc1")] "general-data"
      [some "critical-pressure"] [some "Pc"] (fun _ => 7) "Pc"
      sampleDS sampleES sampleHub1 rfl rfl rfl rfl (List.Mem.head _)
      (List.Mem.head _) (by decide) rfl rfl⟩

end PyLink

